import Mathlib

/-!
Verification of the .bkm bookmark-file parser and serializer
(`src/ParseBKM.cpp` of simryang/sumatrapdf).

Strings are embedded as `List Char`. The C++ `std::string_view` in/out
parameters become explicit pairs: each scanning primitive returns its result
together with the remaining character list. Tree nodes (`DocTocItem`) carry
their payload fields; the `child`/`next` pointer structure is the inductive
`TocChain`, where a null pointer is `TocChain.nil`.

Helper utilities that the repository uses but whose implementation files are
not part of the reviewed sources (`sv::SkipChars`, `sv::ParseUntil`,
`sv::ParseKV`, `sv::AppendQuotedString`, `str::EqI`, `ParseColor`,
`SerializeColor`, `DocTocItem::AddSibling`, the `DocTocItem` field defaults
and the `fontBit*` constants) are modelled from the design document and are
marked as such in their doc comments.  Everything else is translated from
`ParseBKM.cpp`.
-/

/-- Modelled from the spec: destination of a node (§3): kind tag, optional
name, optional value, optional page number (0 = absent), optional rectangle.
The four rectangle coordinates (floats in the source) are modelled as
integers; no claim depends on float formatting. -/
structure PageDestination where
  kind : List Char
  name : Option (List Char)
  value : Option (List Char)
  pageNo : Nat
  rect : Option (Int × Int × Int × Int)
deriving DecidableEq

/-- Payload fields of a `DocTocItem` tree node.  Field meanings follow §3 of
the design document; `color = none` is the `ColorUnset` sentinel and
`dest = none` a null `PageDestination` pointer. -/
structure DocTocItem where
  title : List Char
  fontFlags : Nat
  color : Option Nat
  pageNo : Nat
  isOpenDefault : Bool
  isOpenToggled : Bool
  isUnchecked : Bool
  dest : Option PageDestination
deriving DecidableEq

/-- Modelled from the spec: a default-constructed `DocTocItem` (§3: flags
clear, color unset, page number 0, no destination). -/
def emptyItem : DocTocItem :=
  { title := [], fontFlags := 0, color := none, pageNo := 0,
    isOpenDefault := false, isOpenToggled := false, isUnchecked := false,
    dest := none }

/-- The `child`/`next` pointer structure of `DocTocItem`; `nil` is the null
pointer. -/
inductive TocChain where
  | nil : TocChain
  | node (item : DocTocItem) (child next : TocChain) : TocChain
deriving DecidableEq

/-- `DocTocTree`: the view name and the root node chain. -/
structure DocTocTree where
  name : List Char
  root : TocChain
deriving DecidableEq

/-- Modelled from the spec: name of the bold font bit of `fontFlags` (§3
"bitset of {bold, italic}"; the numeric values are not observable). -/
def fontBitBold : Nat := 0

/-- Modelled from the spec: name of the italic font bit of `fontFlags`. -/
def fontBitItalic : Nat := 1

/-- Modelled from the spec: `sv::SkipChars(sv, c)` — consume leading
occurrences of `c`, returning how many were consumed and the rest (§4.4
"Count leading space characters"). -/
def skipChars : List Char → Char → Nat × List Char
  | [], _ => (0, [])
  | x :: xs, c =>
    if x = c then
      let p := skipChars xs c
      (p.1 + 1, p.2)
    else (0, x :: xs)

/-- Modelled from the spec: `sv::ParseUntil(sv, c)` — the token before the
first occurrence of `c`, and the remainder after that occurrence (all of
`sv` and `[]` when `c` does not occur). -/
def parseUntil : List Char → Char → List Char × List Char
  | [], _ => ([], [])
  | x :: xs, c =>
    if x = c then ([], xs)
    else
      let p := parseUntil xs c
      (x :: p.1, p.2)

theorem parseUntil_snd_length_le (sv : List Char) (c : Char) :
    (parseUntil sv c).2.length ≤ sv.length := by
  induction sv with
  | nil => simp [parseUntil]
  | cons x xs ih =>
    by_cases h : x = c
    · simp [parseUntil, h]
    · simp [parseUntil, h]
      omega

theorem parseUntil_snd_length_lt (sv : List Char) (c : Char) (h : sv ≠ []) :
    (parseUntil sv c).2.length < sv.length := by
  cases sv with
  | nil => exact absurd rfl h
  | cons x xs =>
    by_cases hx : x = c
    · simp [parseUntil, hx]
    · have := parseUntil_snd_length_le xs c
      simp [parseUntil, hx]
      omega

theorem parseUntil_append (a b : List Char) (c : Char) (h : c ∉ a) :
    parseUntil (a ++ c :: b) c = (a, b) := by
  induction a with
  | nil => simp [parseUntil]
  | cons x xs ih =>
    have hx : x ≠ c := fun hc => h (hc ▸ List.mem_cons_self x xs)
    have hxs : c ∉ xs := fun hm => h (List.mem_cons_of_mem x hm)
    simp [parseUntil, hx, ih hxs]

/-- Scanning loop of `parseLineTitle` (`ParseBKM.cpp` lines 113-138), run on
the characters after the opening quote.  Returns the decoded characters and,
on success, `some rest` for the input after the consumed closing quote; on
reaching end of input before an unescaped closing quote it returns `none`
(the C++ loop falls out and leaves the caller's view unmodified). -/
def titleLoop : List Char → List Char × Option (List Char)
  | [] => ([], none)
  | [c] =>
    if c = '"' then ([], some [])
    else if c = '\\' then ([], none)
    else ([c], none)
  | c :: c2 :: rest2 =>
    if c = '"' then ([], some (c2 :: rest2))
    else if c = '\\' then
      if c2 = '\\' || c2 = '"' then
        let p := titleLoop rest2
        (c2 :: p.1, p.2)
      else
        let p := titleLoop (c2 :: rest2)
        ('\\' :: p.1, p.2)
    else
      let p := titleLoop (c2 :: rest2)
      (c :: p.1, p.2)

/-- `parseLineTitle` (`ParseBKM.cpp` lines 100-141): parses a `"quoted
string"` from the front of `sv`.  Returns the decoded title together with the
updated view: past the closing quote on success, `sv` unchanged on failure
(input shorter than 2 characters, no leading quote, or no unescaped closing
quote — in the last case the partially decoded characters are still
returned, as in the source). -/
def parseLineTitle (sv : List Char) : List Char × List Char :=
  if sv.length < 2 then ([], sv)
  else
    match sv with
    | [] => ([], [])
    | c :: rest =>
      if c = '"' then
        match titleLoop rest with
        | (r, some rest2) => (r, rest2)
        | (r, none) => (r, c :: rest)
      else ([], c :: rest)

/-- Modelled from the spec: `sv::AppendQuotedString` (§4.1 Encode): wraps the
text in double quotes and escapes `\` and `"` by prefixing a backslash. -/
def escapeString : List Char → List Char
  | [] => []
  | c :: cs => (if c = '\\' || c = '"' then ['\\', c] else [c]) ++ escapeString cs

/-- Modelled from the spec: the full quoted form emitted by
`sv::AppendQuotedString`. -/
def appendQuotedString (s : List Char) : List Char :=
  '"' :: (escapeString s ++ ['"'])

theorem titleLoop_cons (c : Char) (cs : List Char) :
    titleLoop (c :: cs) =
      (if c = '"' then ([], some cs)
       else if c = '\\' then
         match cs with
         | [] => ([], none)
         | c2 :: rest2 =>
           if c2 = '\\' || c2 = '"' then
             (c2 :: (titleLoop rest2).1, (titleLoop rest2).2)
           else ('\\' :: (titleLoop (c2 :: rest2)).1, (titleLoop (c2 :: rest2)).2)
       else (c :: (titleLoop cs).1, (titleLoop cs).2)) := by
  cases cs with
  | nil =>
    by_cases h1 : c = '"'
    · simp [titleLoop, h1]
    · by_cases h2 : c = '\\'
      · simp [titleLoop, h1, h2]
      · simp [titleLoop, h1, h2]
  | cons c2 rest2 =>
    by_cases h1 : c = '"'
    · simp [titleLoop, h1]
    · by_cases h2 : c = '\\'
      · simp [titleLoop, h1, h2]
      · simp [titleLoop, h1, h2]

theorem titleLoop_escape (s rest : List Char) :
    titleLoop (escapeString s ++ '"' :: rest) = (s, some rest) := by
  induction s with
  | nil =>
    rw [escapeString]
    simp [titleLoop_cons]
  | cons c cs ih =>
    by_cases h1 : c = '\\'
    · subst h1
      simp [escapeString, titleLoop, ih]
    · by_cases h2 : c = '"'
      · subst h2
        simp [escapeString, titleLoop, ih]
      · simp only [escapeString, h1, h2, decide_False, Bool.or_self,
          Bool.false_or, Bool.or_false, if_neg, List.cons_append,
          List.singleton_append, Bool.false_eq_true, not_false_eq_true,
          List.nil_append]
        rw [titleLoop_cons]
        simp [h1, h2, ih]

/-- Claim C7: for every string s, including strings containing the
double-quote and backslash characters, decoding the quoted encoding of s
returns exactly s: `parseLineTitle (appendQuotedString s)` yields s and
consumes the whole input. -/
theorem quoted_string_round_trip (s : List Char) :
    parseLineTitle (appendQuotedString s) = (s, []) := by
  have hloop : titleLoop (escapeString s ++ ['"']) = (s, some []) :=
    titleLoop_escape s []
  have hlen : ¬('"' :: (escapeString s ++ ['"'])).length < 2 := by
    simp only [List.length_cons, List.length_append, List.length_singleton]
    omega
  unfold appendQuotedString parseLineTitle
  simp [hlen, hloop]

/-- Modelled from the spec: hexadecimal digit test for the external color
parser. -/
def isHexDigit (c : Char) : Bool :=
  (48 ≤ c.toNat && c.toNat ≤ 57) || (97 ≤ c.toNat && c.toNat ≤ 102) ||
    (65 ≤ c.toNat && c.toNat ≤ 70)

/-- Modelled from the spec: value of a hexadecimal digit. -/
def hexVal (c : Char) : Nat :=
  if 48 ≤ c.toNat && c.toNat ≤ 57 then c.toNat - 48
  else if 97 ≤ c.toNat && c.toNat ≤ 102 then c.toNat - 87
  else if 65 ≤ c.toNat && c.toNat ≤ 70 then c.toNat - 55
  else 0

/-- Modelled from the spec: the external color parser `ParseColor` as used on
a metadata token (§4.3: "attempt color-token parse (format `color:<value>`,
delegated to the external color parser)"; §6 grammar `color:<spec>`).  It
accepts `color:#rrggbb` and yields the RGB value; `none` is the `ok = false`
result of the C++ `parseColor` wrapper (`ParseBKM.cpp` lines 143-147). -/
def parseColor (t : List Char) : Option Nat :=
  if t.take 7 = ("color:#").data ∧ (t.drop 7).length = 6 ∧
      (t.drop 7).all isHexDigit then
    some ((t.drop 7).foldl (fun a c => a * 16 + hexVal c) 0)
  else none

/-- Modelled from the spec: case-insensitive string equality `str::EqI`. -/
def eqI (a b : List Char) : Bool :=
  a.map Char.toLower == b.map Char.toLower

/-- One iteration of the metadata-token loop of `parseBookmarksLine`
(`ParseBKM.cpp` lines 252-283): classify one space-separated token and update
the node.  The classifiers are tried in source order: `font:bold`,
`font:italic`, color, `open-default` (case-insensitive), `open-toggled`
(case-insensitive), `unchecked`; an unmatched token leaves the node
unchanged.  No classifier for `page:` or `dest*` tokens exists in the loop
(`parseDestination` is never called). -/
def applyToken (d : DocTocItem) (t : List Char) : DocTocItem :=
  if t = ("font:bold").data then
    { d with fontFlags := d.fontFlags ||| (1 <<< fontBitBold) }
  else if t = ("font:italic").data then
    { d with fontFlags := d.fontFlags ||| (1 <<< fontBitItalic) }
  else
    match parseColor t with
    | some c => { d with color := some c }
    | none =>
      if eqI t ("open-default").data then { d with isOpenDefault := true }
      else if eqI t ("open-toggled").data then { d with isOpenToggled := true }
      else if t = ("unchecked").data then { d with isUnchecked := true }
      else d

/-- The whole metadata-token loop: fold `applyToken` over the token list. -/
def processTokens (d : DocTocItem) (ts : List (List Char)) : DocTocItem :=
  ts.foldl applyToken d

/-- Fuel-indexed version of the token-splitting loop `while (line.size() >
0) { part = sv::ParseUntil(line, ' '); ... }` of `parseBookmarksLine`.  Each
iteration consumes at least one character, so fuel equal to the input length
makes this exactly the C++ loop. -/
def tokenizeGo : Nat → List Char → List (List Char)
  | _, [] => []
  | 0, _ :: _ => []
  | fuel + 1, x :: xs =>
    let p := parseUntil (x :: xs) ' '
    p.1 :: tokenizeGo fuel p.2

/-- The token list the metadata loop of `parseBookmarksLine` iterates over. -/
def tokenize (sv : List Char) : List (List Char) :=
  tokenizeGo sv.length sv

theorem tokenizeGo_congr :
    ∀ (f g : Nat) (sv : List Char), sv.length ≤ f → sv.length ≤ g →
      tokenizeGo f sv = tokenizeGo g sv := by
  intro f
  induction f with
  | zero =>
    intro g sv hf _
    have : sv = [] := List.length_eq_zero.mp (Nat.le_zero.mp hf)
    subst this
    cases g <;> rfl
  | succ f ih =>
    intro g sv hf hg
    cases sv with
    | nil => cases g <;> rfl
    | cons x xs =>
      cases g with
      | zero => simp at hg
      | succ g =>
        have hlt : (parseUntil (x :: xs) ' ').2.length < (x :: xs).length :=
          parseUntil_snd_length_lt (x :: xs) ' ' (by simp)
        simp only [List.length_cons] at hf hg hlt
        simp only [tokenizeGo]
        rw [ih g]
        · omega
        · omega

theorem tokenize_cons (sv : List Char) (h : sv ≠ []) :
    tokenize sv = (parseUntil sv ' ').1 :: tokenize (parseUntil sv ' ').2 := by
  cases sv with
  | nil => exact absurd rfl h
  | cons x xs =>
    have hlt : (parseUntil (x :: xs) ' ').2.length < (x :: xs).length :=
      parseUntil_snd_length_lt (x :: xs) ' ' (by simp)
    simp only [List.length_cons] at hlt
    simp only [tokenize, List.length_cons, tokenizeGo]
    rw [tokenizeGo_congr xs.length (parseUntil (x :: xs) ' ').2.length]
    · omega
    · exact Nat.le_refl _

/-- `ParsedDest` (`ParseBKM.cpp` lines 167-169). -/
structure ParsedDest where
  pageNo : Nat
deriving DecidableEq

/-- `parseDestination` (`ParseBKM.cpp` lines 171-178): recognizes only a
`page:` front and returns the constant stub `ParsedDest{1}` (the body is a
`TODO`); it is never called by `parseBookmarksLine` or `parseBookmarks`. -/
def parseDestination (sv : List Char) : Option ParsedDest :=
  if sv.take 5 = ("page:").data then some ⟨1⟩ else none

/-- `parseBookmarksLine` (`ParseBKM.cpp` lines 232-285): count leading
spaces, reject an odd count, compute the indent level, decode the quoted
title, then fold the metadata-token loop over the rest of the line.  Returns
the built node and the indent level, or `none` (the C++ `nullptr`) for odd
indentation — the only failure path. -/
def parseBookmarksLine (line : List Char) : Option (DocTocItem × Nat) :=
  let p := skipChars line ' '
  if p.1 % 2 ≠ 0 then none
  else
    let indentOut := p.1 / 2
    let q := skipChars p.2 ' '
    let t := parseLineTitle q.2
    some (processTokens { emptyItem with title := t.1 } (tokenize t.2), indentOut)

/-- Modelled from the spec: trimming used by the key/value header parser
(§4.2 "returns the trimmed value"). -/
def trimSpaces (s : List Char) : List Char :=
  ((s.dropWhile (fun c => c = ' ')).reverse.dropWhile (fun c => c = ' ')).reverse

/-- Modelled from the spec: `sv::ParseKV(line, key)` (§4.2): skip leading
spaces, read the key up to `:`, space or end of text, require it to equal
the expected literal, and return the trimmed value; the empty list signals
failure (key mismatch or empty value), which is what `parseBookmarks` tests
with `empty()`. -/
def svParseKV (line key : List Char) : List Char :=
  let l := (skipChars line ' ').2
  let k := l.takeWhile (fun c => c ≠ ':' && c ≠ ' ')
  let rest := (l.dropWhile (fun c => c ≠ ':' && c ≠ ' ')).drop 1
  if k = key then trimSpaces rest else []

/-- Fuel-indexed version of the line-collecting loop of `parseBookmarks`
(`ParseBKM.cpp` lines 321-336): split off one line at a time, stop at the
first empty line (or end of input), fail the whole loop if any line fails to
parse.  Each iteration consumes at least one character, so fuel equal to the
input length makes this exactly the C++ loop. -/
def collectGo : Nat → List Char → Option (List (DocTocItem × Nat))
  | _, [] => some []
  | 0, _ :: _ => none
  | fuel + 1, x :: xs =>
    let p := parseUntil (x :: xs) '\n'
    if p.1 = [] then some []
    else
      match parseBookmarksLine p.1 with
      | none => none
      | some it => (collectGo fuel p.2).map (fun l => it :: l)

/-- The (node, indent) list `parseBookmarks` accumulates in `items`. -/
def collectItems (sv : List Char) : Option (List (DocTocItem × Nat)) :=
  collectGo sv.length sv

theorem collectGo_congr :
    ∀ (f g : Nat) (sv : List Char), sv.length ≤ f → sv.length ≤ g →
      collectGo f sv = collectGo g sv := by
  intro f
  induction f with
  | zero =>
    intro g sv hf _
    have : sv = [] := List.length_eq_zero.mp (Nat.le_zero.mp hf)
    subst this
    cases g <;> rfl
  | succ f ih =>
    intro g sv hf hg
    cases sv with
    | nil => cases g <;> rfl
    | cons x xs =>
      cases g with
      | zero => simp at hg
      | succ g =>
        have hlt : (parseUntil (x :: xs) '\n').2.length < (x :: xs).length :=
          parseUntil_snd_length_lt (x :: xs) '\n' (by simp)
        simp only [List.length_cons] at hf hg hlt
        simp only [collectGo]
        rw [ih g]
        · omega
        · omega

theorem collectItems_cons (sv : List Char) (h : sv ≠ []) :
    collectItems sv =
      (if (parseUntil sv '\n').1 = [] then some []
       else
         match parseBookmarksLine (parseUntil sv '\n').1 with
         | none => none
         | some it =>
           (collectItems (parseUntil sv '\n').2).map (fun l => it :: l)) := by
  cases sv with
  | nil => exact absurd rfl h
  | cons x xs =>
    have hlt : (parseUntil (x :: xs) '\n').2.length < (x :: xs).length :=
      parseUntil_snd_length_lt (x :: xs) '\n' (by simp)
    simp only [List.length_cons] at hlt
    simp only [collectItems, List.length_cons, collectGo]
    rw [collectGo_congr xs.length (parseUntil (x :: xs) '\n').2.length]
    · omega
    · exact Nat.le_refl _

/-- Working state of the tree-reconstruction loop of `parseBookmarks`
(`ParseBKM.cpp` lines 346-380): the `items` array as a list of
(node index, indent) pairs — node `i` is the node parsed from line `i`, so
the array entries are indices into the parsed-node list — plus the `child`
and `next` pointer of every node, `none` being the C++ null pointer. -/
structure BuildSt where
  arr : List (Nat × Nat)
  childL : List (Option Nat)
  nextL : List (Option Nat)

/-- End of the `next` sibling chain starting at node `i`, following at most
`fuel` links (every chain built by the loop is shorter than the node count,
so fuel equal to the node count makes this exact). -/
def chainEnd (nextL : List (Option Nat)) : Nat → Nat → Nat
  | 0, i => i
  | fuel + 1, i =>
    match nextL.getD i none with
    | none => i
    | some j => chainEnd nextL fuel j

/-- Modelled from the spec: `DocTocItem::AddSibling(item)` (§4.5 "append to
the end of its sibling chain"): walk the `next` chain from `target` and
point the last node's `next` at `item`. -/
def addSibling (st : BuildSt) (target item : Nat) : BuildSt :=
  let e := chainEnd st.nextL st.nextL.length target
  { st with nextL := st.nextL.set e (some item) }

/-- The backward scan of the dedent case (`ParseBKM.cpp` lines 367-375):
`for (int j = i - 1; j >= 0; j--) { prev = items[j]; ... }`.  `prev` is a
C++ reference bound to `items[i - 1]` (position `pos` here), so the
assignment `prev = items[j]` writes `items[j]`'s current value into
`items[i - 1]` before the comparison; on a match the node is appended to the
found entry's sibling chain, and if the scan falls off the front the node is
appended to the root's (node 0's) sibling chain instead. -/
def scanLoop (currIdx currIndent pos : Nat) : Nat → BuildSt → BuildSt
  | j, st =>
    let e := st.arr.getD j (0, 0)
    let st2 := { st with arr := st.arr.set pos e }
    if e.2 = currIndent then addSibling st2 e.1 currIdx
    else
      match j with
      | 0 => addSibling st2 0 currIdx
      | jj + 1 => scanLoop currIdx currIndent pos jj st2

/-- One iteration of the reconstruction loop (`ParseBKM.cpp` lines 355-380):
compare entry `i`'s indent with entry `i-1`'s; equal → previous node's
`next`, greater → previous node's `child`, lesser → backward scan. -/
def buildStep (st : BuildSt) (i : Nat) : BuildSt :=
  let curr := st.arr.getD i (0, 0)
  let prev := st.arr.getD (i - 1) (0, 0)
  if prev.2 = curr.2 then { st with nextL := st.nextL.set prev.1 (some curr.1) }
  else if prev.2 < curr.2 then { st with childL := st.childL.set prev.1 (some curr.1) }
  else scanLoop curr.1 curr.2 (i - 1) (i - 1) st

/-- Materializes the pointer structure as a `TocChain`, starting from a node
index; `fuel` bounds the link-following depth (links always point from a
lower-numbered to a higher-numbered node, so fuel = node count + 1 is
exact). -/
def toToc (ds : List DocTocItem) (childL nextL : List (Option Nat)) :
    Nat → Option Nat → TocChain
  | _, none => TocChain.nil
  | 0, some _ => TocChain.nil
  | fuel + 1, some i =>
    TocChain.node (ds.getD i emptyItem)
      (toToc ds childL nextL fuel (childL.getD i none))
      (toToc ds childL nextL fuel (nextL.getD i none))

/-- The whole tree reconstruction of `parseBookmarks` (`ParseBKM.cpp` lines
346-380): run `buildStep` for `i = 1 .. n-1` over the initial array of
(node index, indent) pairs, then read the tree off the pointer structure
from the root, node 0 (`tree->root = items[0].item`). -/
def buildToc (items : List (DocTocItem × Nat)) : TocChain :=
  let n := items.length
  let st0 : BuildSt :=
    ⟨(List.range n).zip (items.map Prod.snd),
     List.replicate n none, List.replicate n none⟩
  let st := ((List.range n).drop 1).foldl buildStep st0
  toToc (items.map Prod.fst) st.childL st.nextL (n + 1) (some 0)

/-- `parseBookmarks` (`ParseBKM.cpp` lines 302-387): parse the `file:` and
`title:` header lines, failing if either key/value is missing or empty;
collect the outline lines, failing if any line fails; fail on an empty item
list; otherwise reconstruct the tree.  `none` models `return false` with no
`Bookmarks` appended to the caller's vector, `some` models `return true`
with the assembled tree appended. -/
def parseBookmarks (sv : List Char) : Option DocTocTree :=
  let p1 := parseUntil sv '\n'
  let file := svParseKV p1.1 ("file").data
  if file = [] then none
  else
    let p2 := parseUntil p1.2 '\n'
    let title := svParseKV p2.1 ("title").data
    if title = [] then none
    else
      match collectItems p2.2 with
      | none => none
      | some items =>
        if items.isEmpty then none
        else some { name := title, root := buildToc items }

/-- Decimal digits of a natural number, as printed by `%d` for non-negative
values. -/
def natChars (n : Nat) : List Char :=
  Nat.toDigits 10 n

/-- Signed decimal digits, used for the modelled rectangle coordinates. -/
def intChars (i : Int) : List Char :=
  if i < 0 then '-' :: natChars i.natAbs else natChars i.toNat

/-- Modelled from the spec: one hexadecimal digit character. -/
def hexDigitChar (n : Nat) : Char :=
  if n < 10 then Char.ofNat (48 + n) else Char.ofNat (87 + n)

/-- Modelled from the spec: six-digit hexadecimal form of an RGB value. -/
def toHex6 (c : Nat) : List Char :=
  [hexDigitChar (c / 1048576 % 16), hexDigitChar (c / 65536 % 16),
   hexDigitChar (c / 4096 % 16), hexDigitChar (c / 256 % 16),
   hexDigitChar (c / 16 % 16), hexDigitChar (c % 16)]

/-- Modelled from the spec: `SerializeColor` emits the `color:<spec>` token
(§6 grammar), here in the `color:#rrggbb` form accepted by the modelled
`parseColor`. -/
def serializeColorTok (c : Nat) : List Char :=
  ("color:#").data ++ toHex6 c

/-- `SerializeKeyVal` (`ParseBKM.cpp` lines 28-36): nothing for a null
value, otherwise a space, the key, a colon and the quoted value. -/
def serializeKeyVal (key : List Char) (val : Option (List Char)) : List Char :=
  match val with
  | none => []
  | some v => ' ' :: (key ++ ':' :: appendQuotedString v)

/-- `SerializeDest` (`ParseBKM.cpp` lines 38-52): nothing for a null
destination, otherwise ` destkind:<kind>`, the optional quoted name and
value, ` destpage:<n>` when the page number is positive, and
` destrect:<x>,<y>,<w>,<h>` when the rectangle is present (the C++ emptiness
test on the rectangle is modelled by the option). -/
def serializeDest (dest : Option PageDestination) : List Char :=
  match dest with
  | none => []
  | some d =>
    (" destkind:").data ++ d.kind
      ++ serializeKeyVal ("destname").data d.name
      ++ serializeKeyVal ("destvalue").data d.value
      ++ (if d.pageNo > 0 then (" destpage:").data ++ natChars d.pageNo else [])
      ++ (match d.rect with
          | none => []
          | some (x, y, w, h) =>
            (" destrect:").data ++ intChars x ++ ',' :: intChars y
              ++ ',' :: intChars w ++ ',' :: intChars h)

/-- Per-node emission of `SerializeBookmarksRec` (`ParseBKM.cpp` lines
63-92), after the indentation: quoted title, then each present field in
source order, then the destination, then the line break.  The `open-toggled`
token is guarded by `node->isOpenDefault` (line 83), exactly as in the
source; the `unchecked` token is emitted with two leading spaces (line 87). -/
def serializeItemBody (d : DocTocItem) : List Char :=
  appendQuotedString d.title
    ++ (if Nat.testBit d.fontFlags fontBitItalic then (" font:italic").data else [])
    ++ (if Nat.testBit d.fontFlags fontBitBold then (" font:bold").data else [])
    ++ (match d.color with
        | some c => ' ' :: serializeColorTok c
        | none => [])
    ++ (if d.pageNo ≠ 0 then (" page:").data ++ natChars d.pageNo else [])
    ++ (if d.isOpenDefault then (" open-default").data else [])
    ++ (if d.isOpenDefault then (" open-toggled").data else [])
    ++ (if d.isUnchecked then ("  unchecked").data else [])
    ++ serializeDest d.dest
    ++ ['\n']

/-- Two spaces per indent level (`ParseBKM.cpp` lines 60-62). -/
def indentChars : Nat → List Char
  | 0 => []
  | n + 1 => ' ' :: ' ' :: indentChars n

/-- The `while (node)` loop of `SerializeBookmarksRec`: emit the node's
line, recurse into the child chain one level deeper, then advance to the
next sibling.  The `level == 0` header of the C++ function is added by
`serializeBookmarksRec`; recursive calls pass `level + 1 ≥ 1`, for which
that header check is dead, so the loop can recurse through this function
directly. -/
def serializeNodes : TocChain → Nat → List Char
  | TocChain.nil, _ => []
  | TocChain.node d c n, level =>
    indentChars level ++ serializeItemBody d
      ++ serializeNodes c (level + 1) ++ serializeNodes n level

/-- `SerializeBookmarksRec` (`ParseBKM.cpp` lines 54-97): at level 0 emit
the fixed `title: default view` header, then the node loop. -/
def serializeBookmarksRec (t : TocChain) (level : Nat) : List Char :=
  (if level = 0 then ("title: default view\n").data else []) ++ serializeNodes t level

/-- Text written by `ExportBookmarksToFile` (`ParseBKM.cpp` lines 414-424)
for a single tree: the `file: <path>` header followed by the level-0
serialization. -/
def exportBookmarksStr (filePath : List Char) (t : DocTocTree) : List Char :=
  ("file: ").data ++ filePath ++ '\n' :: serializeBookmarksRec t.root 0

/-- The single-node tree used to exercise the serialize-then-parse round
trip: title `a`, page number 5, all other fields default. -/
def c1Item : DocTocItem := { emptyItem with title := ['a'], pageNo := 5 }

/-- The round-trip input document (the serializer always writes the fixed
view title `default view`, so the name is chosen to match and isolate the
page-number divergence). -/
def c1Tree : DocTocTree :=
  { name := ("default view").data,
    root := TocChain.node c1Item TocChain.nil TocChain.nil }

/-- Claim C1: parsing the serialized text of a well-formed tree yields the
tree back field-for-field.  FALSIFIED by the code: for the tree with one
node of page number 5, the serializer emits `"a" page:5`, but the
metadata-token loop of `parseBookmarksLine` has no classifier for `page:`
tokens (`parseDestination` is an unused stub), so the re-parsed node has
page number 0 and the round trip does not return the input tree. -/
theorem bookmarks_round_trip_fails :
    parseBookmarks (exportBookmarksStr ("d").data c1Tree)
        = some { name := ("default view").data,
                 root := TocChain.node { emptyItem with title := ['a'] }
                   TocChain.nil TocChain.nil } ∧
      parseBookmarks (exportBookmarksStr ("d").data c1Tree) ≠ some c1Tree := by
  constructor
  · decide
  · decide

/-- A node with the given one-character title and all other fields
default, as produced by parsing a line holding only a quoted title. -/
def c2Item (c : Char) : DocTocItem := { emptyItem with title := [c] }

/-- The C2 input document: six outline lines with raw indents
0, 2, 4, 2, 6, 4, that is indent levels 0, 1, 2, 1, 3, 2. -/
def c2Text : List Char :=
  ("file: a\ntitle: t\n\"A\"\n  \"B\"\n    \"C\"\n  \"D\"\n      \"E\"\n    \"F\"\n").data

/-- The tree the code actually builds from `c2Text`: the dedent at D
overwrote working-array entry 2 (the `auto& prev` aliasing), so the dedent
at F finds no equal-indent entry and F is appended to the root's sibling
chain. -/
def c2CodeToc : TocChain :=
  TocChain.node (c2Item 'A')
    (TocChain.node (c2Item 'B')
      (TocChain.node (c2Item 'C') TocChain.nil TocChain.nil)
      (TocChain.node (c2Item 'D')
        (TocChain.node (c2Item 'E') TocChain.nil TocChain.nil) TocChain.nil))
    (TocChain.node (c2Item 'F') TocChain.nil TocChain.nil)

/-- Modelled from the spec: the tree the claim's attach rules describe for
`c2Text` — F (indent level 2, after E at level 3) appends to the sibling
chain of C, the nearest earlier entry of equal indent. -/
def c2ClaimToc : TocChain :=
  TocChain.node (c2Item 'A')
    (TocChain.node (c2Item 'B')
      (TocChain.node (c2Item 'C') TocChain.nil
        (TocChain.node (c2Item 'F') TocChain.nil TocChain.nil))
      (TocChain.node (c2Item 'D')
        (TocChain.node (c2Item 'E') TocChain.nil TocChain.nil) TocChain.nil))
    TocChain.nil

/-- Claim C2: on a strictly lesser indent the reconstructor attaches the
node to the nearest earlier entry of equal indent (root fallback only when
none exists).  FALSIFIED by the code on indent levels 0,1,2,1,3,2: the
backward scan of the earlier dedent (node D) assigned through the reference
`auto& prev = items[i-1]`, overwriting entry 2 of the working array with
entry 1, so the scan for F sees no entry of indent level 2 and falls back to
the root: the code appends F to the root A's sibling chain instead of C's. -/
theorem dedent_scan_diverges :
    parseBookmarks c2Text = some { name := ['t'], root := c2CodeToc } ∧
      c2CodeToc ≠ c2ClaimToc := by
  constructor
  · decide
  · decide

/-- Claim C3: the metadata-token parser populates typed fields including
`page:<n>` into the node's page number and `destkind:`/`destpage:`/... into
the node's structured destination.  FALSIFIED by the code: the token loop of
`parseBookmarksLine` classifies only `font:bold`, `font:italic`, color,
`open-default`, `open-toggled` and `unchecked`; on the line
`"a" font:bold page:5 destkind:scrollto destpage:3` the bold flag is set but
the page number stays 0 and the destination stays null — the `page:` and
`dest*` tokens fall through to the silent-ignore path (`parseDestination` is
an unused `TODO` stub). -/
theorem metadata_page_dest_not_parsed :
    parseBookmarksLine (("\"a\" font:bold page:5 destkind:scrollto destpage:3").data)
        = some ({ emptyItem with title := ['a'], fontFlags := 1 }, 0) ∧
      ({ emptyItem with title := ['a'], fontFlags := 1 } : DocTocItem).pageNo = 0 ∧
      ({ emptyItem with title := ['a'], fontFlags := 1 } : DocTocItem).dest = none := by
  refine ⟨by decide, rfl, rfl⟩

/-- Helper: an odd leading-space count makes `parseBookmarksLine` fail. -/
theorem parseBookmarksLine_odd_none (line : List Char)
    (h : (skipChars line ' ').1 % 2 = 1) : parseBookmarksLine line = none := by
  have hne : (skipChars line ' ').1 % 2 ≠ 0 := by omega
  simp [parseBookmarksLine, hne]

/-- Claim C4: document parse failure is atomic: a missing, misspelled or
empty-valued `file:` or `title:` header, or any outline line failing to
parse, makes `parseBookmarks` return failure — no partial tree is ever
handed to the caller (the `none` result models `return false` with nothing
appended to the caller's vector). -/
theorem document_parse_atomic (sv : List Char)
    (h : svParseKV (parseUntil sv '\n').1 (("file").data) = [] ∨
         svParseKV (parseUntil (parseUntil sv '\n').2 '\n').1 (("title").data) = [] ∨
         collectItems (parseUntil (parseUntil sv '\n').2 '\n').2 = none) :
    parseBookmarks sv = none := by
  unfold parseBookmarks
  rcases h with h | h | h
  · simp [h]
  · by_cases hf : svParseKV (parseUntil sv '\n').1 (("file").data) = []
    · simp [hf]
    · simp [hf, h]
  · by_cases hf : svParseKV (parseUntil sv '\n').1 (("file").data) = []
    · simp [hf]
    · by_cases ht :
        svParseKV (parseUntil (parseUntil sv '\n').2 '\n').1 (("title").data) = []
      · simp [hf, ht]
      · simp [hf, ht, h]

/-- Witness for C4: a document whose `file:` header is misspelled (`flie:`)
fails as a whole. -/
theorem document_parse_atomic_witness :
    parseBookmarks (("flie: x\ntitle: t\n\"a\"\n").data) = none :=
  document_parse_atomic (("flie: x\ntitle: t\n\"a\"\n").data) (Or.inl (by decide))

/-- Claim C5: a line with an odd count of leading spaces fails the line
parse and produces no node, and aborts the enclosing document parse when it
occurs as the first outline line; a line with an even count passes the
indentation check and its indent level is the count divided by 2 (the line
parse then always succeeds — the odd count is the sole failure path). -/
theorem indentation_check (line : List Char) :
    ((skipChars line ' ').1 % 2 = 1 → parseBookmarksLine line = none) ∧
    ((skipChars line ' ').1 % 2 = 0 →
      ∃ d, parseBookmarksLine line = some (d, (skipChars line ' ').1 / 2)) ∧
    (∀ h1 h2 rest, (skipChars line ' ').1 % 2 = 1 → line ≠ [] →
      '\n' ∉ line → '\n' ∉ h1 → '\n' ∉ h2 →
      parseBookmarks (h1 ++ '\n' :: (h2 ++ '\n' :: (line ++ '\n' :: rest))) = none) := by
  refine ⟨parseBookmarksLine_odd_none line, ?_, ?_⟩
  · intro h
    have hne : ¬(skipChars line ' ').1 % 2 ≠ 0 := by omega
    exact ⟨_, by simp only [parseBookmarksLine]; rw [if_neg hne]⟩
  · intro h1 h2 rest hodd hne hnl hn1 hn2
    have e1 : parseUntil (h1 ++ '\n' :: (h2 ++ '\n' :: (line ++ '\n' :: rest))) '\n'
        = (h1, h2 ++ '\n' :: (line ++ '\n' :: rest)) := parseUntil_append _ _ _ hn1
    have e2 : parseUntil (h2 ++ '\n' :: (line ++ '\n' :: rest)) '\n'
        = (h2, line ++ '\n' :: rest) := parseUntil_append _ _ _ hn2
    have e3 : parseUntil (line ++ '\n' :: rest) '\n' = (line, rest) :=
      parseUntil_append _ _ _ hnl
    have hlp : parseBookmarksLine line = none := parseBookmarksLine_odd_none line hodd
    have hcoll : collectItems (line ++ '\n' :: rest) = none := by
      rw [collectItems_cons _ (by simp), e3]
      simp [hne, hlp]
    exact document_parse_atomic _ (by rw [e1, e2]; exact Or.inr (Or.inr hcoll))

/-- Witness for C5: three leading spaces fail the line parse; two leading
spaces succeed with indent level 1; a document whose first outline line has
three leading spaces fails as a whole. -/
theorem indentation_check_witness :
    parseBookmarksLine (("   \"x\"").data) = none ∧
      (∃ d, parseBookmarksLine (("  \"x\"").data)
        = some (d, (skipChars (("  \"x\"").data) ' ').1 / 2)) ∧
      parseBookmarks (("file: f\ntitle: t\n   \"x\"\n").data) = none := by
  refine ⟨(indentation_check (("   \"x\"").data)).1 (by decide),
    (indentation_check (("  \"x\"").data)).2.1 (by decide), ?_⟩
  have h := (indentation_check (("   \"x\"").data)).2.2 (("file: f").data)
    (("title: t").data) [] (by decide) (by decide) (by decide) (by decide) (by decide)
  have e : (("file: f\ntitle: t\n   \"x\"\n").data)
      = ("file: f").data ++ '\n' :: ((("title: t").data)
          ++ '\n' :: ((("   \"x\"").data) ++ '\n' :: [])) := by decide
  rw [e]
  exact h

/-- Claim C6: a token matched by none of the classifiers of the
metadata-token loop leaves the node unchanged and is silently skipped: the
fold over a token list containing it equals the fold over the list with it
removed, so every other token on the line populates its field exactly as it
would without the unknown token (and the line parse itself, which never
fails on token content, still succeeds). -/
theorem unknown_token_ignored (d : DocTocItem) (pre post : List (List Char))
    (t : List Char)
    (h1 : t ≠ ("font:bold").data) (h2 : t ≠ ("font:italic").data)
    (h3 : parseColor t = none)
    (h4 : eqI t (("open-default").data) = false)
    (h5 : eqI t (("open-toggled").data) = false)
    (h6 : t ≠ ("unchecked").data) :
    applyToken d t = d ∧
      processTokens d (pre ++ t :: post) = processTokens d (pre ++ post) := by
  have hap : ∀ d' : DocTocItem, applyToken d' t = d' := by
    intro d'
    simp [applyToken, h1, h2, h3, h4, h5, h6]
  refine ⟨hap d, ?_⟩
  unfold processTokens
  rw [List.foldl_append, List.foldl_append, List.foldl_cons, hap]

/-- Witness for C6: `glow:shiny` is unknown; removing it from between
`font:bold` and `unchecked` does not change the parsed node. -/
theorem unknown_token_ignored_witness :
    applyToken emptyItem (("glow:shiny").data) = emptyItem ∧
      processTokens emptyItem
          ([("font:bold").data] ++ ("glow:shiny").data :: [("unchecked").data])
        = processTokens emptyItem ([("font:bold").data] ++ [("unchecked").data]) :=
  unknown_token_ignored emptyItem [("font:bold").data] [("unchecked").data]
    (("glow:shiny").data) (by decide) (by decide) (by decide) (by decide)
    (by decide) (by decide)

/-- Counterexample to claim C8: on the line `"a` (opening quote, one
character, no closing quote) the title decode fails — yet the produced
node's title is the partial text `a`, not the empty string the claim
asserts. -/
theorem unterminated_quote_title_not_empty :
    parseBookmarksLine (("\"a").data) = some ({ emptyItem with title := ['a'] }, 0) ∧
      ({ emptyItem with title := ['a'] } : DocTocItem).title ≠ [] := by
  exact ⟨by decide, by decide⟩

/-- Helper: skipping a character twice is the same as skipping it once —
the second `sv::SkipChars` call in `parseBookmarksLine` is a no-op. -/
theorem skipChars_snd_skip (l : List Char) (c : Char) :
    skipChars (skipChars l c).2 c = (0, (skipChars l c).2) := by
  induction l with
  | nil => simp [skipChars]
  | cons x xs ih =>
    by_cases h : x = c
    · simp [skipChars, h, ih]
    · simp [skipChars, h]

/-- Claim C8 as amended: a line whose remainder after the indentation does
not hold a well-formed quoted title never aborts the line: the decoder
returns the remainder unmodified, yielding an empty title when the remainder
is shorter than 2 characters or does not start with a double quote, and the
partial text decoded before end of input when no unescaped closing quote is
found; with even indentation the line parse still succeeds, its node's
title being whatever the decoder returned. -/
theorem title_decode_failure_tolerated (r line : List Char) :
    (r.length < 2 → parseLineTitle r = ([], r)) ∧
    (∀ c rest, r = c :: rest → c ≠ '"' → parseLineTitle r = ([], r)) ∧
    (∀ rest p, r = '"' :: rest → titleLoop rest = (p, none) →
      parseLineTitle r = (p, r)) ∧
    ((skipChars line ' ').1 % 2 = 0 →
      parseBookmarksLine line = some
        (processTokens
          { emptyItem with title := (parseLineTitle ((skipChars line ' ').2)).1 }
          (tokenize ((parseLineTitle ((skipChars line ' ').2)).2)),
         (skipChars line ' ').1 / 2)) := by
  refine ⟨?_, ?_, ?_, ?_⟩
  · intro h
    unfold parseLineTitle
    rw [if_pos h]
  · intro c rest hr hc
    subst hr
    by_cases hl : (c :: rest).length < 2
    · unfold parseLineTitle
      rw [if_pos hl]
    · unfold parseLineTitle
      rw [if_neg hl]
      simp [hc]
  · intro rest p hr htl
    subst hr
    by_cases hl : ('"' :: rest).length < 2
    · have : rest = [] := by
        simp only [List.length_cons] at hl
        exact List.length_eq_zero.mp (by omega)
      subst this
      have hp : p = [] := by
        have h2 := htl
        simp [titleLoop] at h2
        exact h2
      subst hp
      unfold parseLineTitle
      rw [if_pos hl]
    · unfold parseLineTitle
      rw [if_neg hl]
      simp [htl]
  · intro h
    have hne : ¬(skipChars line ' ').1 % 2 ≠ 0 := by omega
    simp only [parseBookmarksLine]
    rw [if_neg hne, skipChars_snd_skip]

/-- Witness for the amended C8: the three failure shapes at concrete inputs
(`x`, `ab`, `"a`) and the successful line parse of `"a` with the partial
title `a`. -/
theorem title_decode_failure_tolerated_witness :
    parseLineTitle ['x'] = ([], ['x']) ∧
      parseLineTitle (("ab").data) = ([], ("ab").data) ∧
      parseLineTitle (("\"a").data) = (['a'], ("\"a").data) ∧
      parseBookmarksLine (("\"a").data) = some
        (processTokens
          { emptyItem with title := (parseLineTitle ((skipChars (("\"a").data) ' ').2)).1 }
          (tokenize ((parseLineTitle ((skipChars (("\"a").data) ' ').2)).2)),
         (skipChars (("\"a").data) ' ').1 / 2) := by
  refine ⟨(title_decode_failure_tolerated ['x'] []).1 (by decide),
    (title_decode_failure_tolerated (("ab").data) []).2.1 'a' ['b'] (by decide) (by decide),
    (title_decode_failure_tolerated (("\"a").data) []).2.2.1 ['a'] ['a'] (by decide) (by decide),
    (title_decode_failure_tolerated [] (("\"a").data)).2.2.2 (by decide)⟩

/-- Claim C9: the serializer emits a node's present fields in the fixed
order font-italic, font-bold, color, page number, open-default,
open-toggled, unchecked, destination fields (kind, name, value, page, rect)
and a line break; the `open-toggled` token is emitted exactly when the
node's `isOpenDefault` flag is set — the serialization is independent of
the node's `isOpenToggled` flag (`ParseBKM.cpp` line 83 tests
`isOpenDefault` again). -/
theorem serializer_field_order (d : DocTocItem) (b : Bool) :
    serializeItemBody d =
      appendQuotedString d.title
        ++ (if Nat.testBit d.fontFlags fontBitItalic then (" font:italic").data else [])
        ++ (if Nat.testBit d.fontFlags fontBitBold then (" font:bold").data else [])
        ++ (match d.color with
            | some c => ' ' :: serializeColorTok c
            | none => [])
        ++ (if d.pageNo ≠ 0 then (" page:").data ++ natChars d.pageNo else [])
        ++ (if d.isOpenDefault then (" open-default").data else [])
        ++ (if d.isOpenDefault then (" open-toggled").data else [])
        ++ (if d.isUnchecked then ("  unchecked").data else [])
        ++ serializeDest d.dest
        ++ ['\n'] ∧
      serializeItemBody { d with isOpenToggled := b } = serializeItemBody d := by
  exact ⟨rfl, rfl⟩

/-- Helper: the empty token produced by a run of consecutive spaces matches
no classifier, so folding the token loop ignores it: the fold equals the
fold over the token list with all empty tokens removed. -/
theorem processTokens_filter_empty (ts : List (List Char)) :
    ∀ d : DocTocItem,
      processTokens d ts = processTokens d (ts.filter (fun t => !t.isEmpty)) := by
  induction ts with
  | nil =>
    intro d
    rfl
  | cons t ts ih =>
    intro d
    by_cases h : t = []
    · subst h
      have hemp : applyToken d [] = d := rfl
      simp only [processTokens, List.foldl_cons, List.filter_cons] at ih ⊢
      simp only [List.isEmpty_nil, Bool.not_true, Bool.false_eq_true, if_false]
      rw [hemp]
      exact ih d
    · have hkeep : (!t.isEmpty) = true := by
        simp [List.isEmpty_iff, h]
      simp only [processTokens, List.foldl_cons, List.filter_cons, hkeep, if_pos]
      exact ih (applyToken d t)

/-- Claim C10: runs of consecutive spaces between metadata tokens do not
change the parse result: splitting produces empty tokens, each empty token
matches no classifier and is skipped, so two lines whose token lists agree
after dropping empty tokens parse to the same node — in particular the
serializer's `  unchecked` (two spaces, `ParseBKM.cpp` line 87) re-parses
exactly like ` unchecked`. -/
theorem extra_spaces_harmless (d : DocTocItem) (l1 l2 : List Char)
    (h : (tokenize l1).filter (fun t => !t.isEmpty)
        = (tokenize l2).filter (fun t => !t.isEmpty)) :
    applyToken d [] = d ∧
      processTokens d (tokenize l1) = processTokens d (tokenize l2) := by
  refine ⟨rfl, ?_⟩
  rw [processTokens_filter_empty (tokenize l1) d,
    processTokens_filter_empty (tokenize l2) d, h]

/-- Witness for C10: the serializer's double-spaced `  unchecked` tail
parses to the same node as the single-spaced form. -/
theorem extra_spaces_harmless_witness :
    applyToken emptyItem [] = emptyItem ∧
      processTokens emptyItem (tokenize ((" unchecked").data))
        = processTokens emptyItem (tokenize (("  unchecked").data)) :=
  extra_spaces_harmless emptyItem ((" unchecked").data) (("  unchecked").data)
    (by decide)
